import Mathlib

/-!
Verification development for the chemeleon2 repository.

The definitions below are shallow embeddings of the Python sources:
`src/rl_module/reward.py` (reward aggregation), `src/utils/checkpoint_downloader.py`
(checkpoint resolution), `src/data/components/mp_dataset.py` (dataset build and
access), and `src/vae_module/positional_embeddings.py` (per-graph embeddings).
Torch float semantics relevant to the rewards are modelled with an explicit
NaN value over the rationals; external library calls (pymatgen, huggingface_hub,
h5py, the neural embedding tables) enter as abstract function parameters.
-/

/-- A torch scalar as used by the reward pipeline: either NaN or a rational
number.  NaN propagates through addition and subtraction and survives
clamping, mirroring IEEE/torch behaviour on the operations the code uses. -/
inductive FVal where
  | nan : FVal
  | val : ℚ → FVal
deriving DecidableEq, Repr

/-- Torch scalar addition: NaN-absorbing. -/
def FVal.add : FVal → FVal → FVal
  | .nan, _ => .nan
  | .val _, .nan => .nan
  | .val a, .val b => .val (a + b)

/-- Torch scalar subtraction: NaN-absorbing. -/
def FVal.sub : FVal → FVal → FVal
  | .nan, _ => .nan
  | .val _, .nan => .nan
  | .val a, .val b => .val (a - b)

/-- `torch.isnan` on one scalar. -/
def FVal.isNan : FVal → Bool
  | .nan => true
  | .val _ => false

/-- Numeric content of a non-NaN scalar (0 for NaN; only used under
no-NaN hypotheses). -/
def FVal.toQ : FVal → ℚ
  | .nan => 0
  | .val q => q

/-- `torch.clamp(x, min=-1.0, max=1.0)` on one scalar: NaN passes through. -/
def FVal.clamp : FVal → FVal
  | .nan => .nan
  | .val q => .val (max (-1) (min 1 q))

/-- Elementwise tensor addition (`total_rewards += comp_rewards`); all call
sites add tensors of equal length. -/
def addVec (a b : List FVal) : List FVal :=
  List.zipWith FVal.add a b

/-- `Tensor.mean()`: NaN when the tensor is empty or contains a NaN entry,
otherwise the sum of the entries divided by their number. -/
def meanF (xs : List FVal) : FVal :=
  if xs.isEmpty ∨ xs.any FVal.isNan then .nan
  else .val ((xs.map FVal.toQ).sum / xs.length)

/-- `ReinforceReward.forward` (src/rl_module/reward.py, lines 41-67): starts
from `torch.zeros(len(batch_gen))`, adds each component's reward tensor in
order, raises `ValueError` ("NaN values found in rewards.") when any entry of
the sum is NaN, and otherwise returns the summed tensor.  `B` is
`len(batch_gen)` (the number of structures in the generated batch) and each
component is represented by the reward tensor it returns for that batch. -/
def ReinforceReward.forward (B : ℕ) (components : List (List FVal)) :
    Except String (List FVal) :=
  let total := components.foldl addVec (List.replicate B (FVal.val 0))
  if total.any FVal.isNan then
    Except.error "NaN values found in rewards."
  else
    Except.ok total

/-- The reference, pointwise elementwise sum of the component reward tensors:
entry `i` is the sum over components of their entry `i`. -/
def elemwiseSum (B : ℕ) (components : List (List FVal)) : List FVal :=
  (List.range B).map
    (fun i => FVal.val ((components.map (fun c => (c.getD i FVal.nan).toQ)).sum))

/-- State stored by `ReinforceReward.__init__`: the configured normalization
name and epsilon, and whether a shared `Metrics` object was constructed. -/
structure RewardState where
  normalize_fn : Option String
  eps : ℚ
  hasMetrics : Bool
deriving DecidableEq, Repr

/-- `ReinforceReward.__init__` (src/rl_module/reward.py, lines 13-39): stores
the components and configuration, collects the union of `required_metrics`
over the components, and constructs a shared `Metrics` object when that union
is non-empty (`mkMetrics` stands for the external `Metrics` constructor from
src/utils/metrics.py, the only construction step that can raise).  The body
contains no check of `normalize_fn`. -/
def ReinforceReward.init (mkMetrics : List String → Except String Unit)
    (requiredMetrics : List (List String)) (normalize_fn : Option String)
    (eps : ℚ) : Except String RewardState :=
  let allMetrics := (requiredMetrics.foldl (· ++ ·) []).dedup
  match (if allMetrics.isEmpty then Except.ok () else mkMetrics allMetrics) with
  | .error e => Except.error e
  | .ok _ =>
      Except.ok { normalize_fn := normalize_fn, eps := eps,
                  hasMetrics := !allMetrics.isEmpty }

/-- `ReinforceReward.normalize` (src/rl_module/reward.py, lines 69-84):
dispatch on the configured normalization name; an unrecognized name raises
`ValueError`.  `normFn` and `stdFn` stand for the `normalize` and
`standardize` helpers imported from src/rl_module/components.py ("norm" and
"std" branches); they are irrelevant to the claims below. -/
def ReinforceReward.normalize (normFn stdFn : List FVal → ℚ → List FVal)
    (normalize_fn : Option String) (eps : ℚ) (rewards : List FVal) :
    Except String (List FVal) :=
  if normalize_fn = some "norm" then Except.ok (normFn rewards eps)
  else if normalize_fn = some "std" then Except.ok (stdFn rewards eps)
  else if normalize_fn = some "subtract_mean" then
    Except.ok (rewards.map (fun v => v.sub (meanF rewards)))
  else if normalize_fn = some "clip" then
    Except.ok (rewards.map FVal.clamp)
  else if normalize_fn = none then Except.ok rewards
  else
    Except.error "Unknown normalization type. Use norm, std, clip, or None."

theorem FVal.isNan_add (a b : FVal) : (FVal.add a b).isNan = (a.isNan || b.isNan) := by
  cases a <;> cases b <;> rfl

theorem addVec_length (a b : List FVal) (h : b.length = a.length) :
    (addVec a b).length = a.length := by
  simp [addVec, h]

theorem addVec_getD : ∀ (a b : List FVal) (i : ℕ), i < a.length → i < b.length →
    (addVec a b).getD i FVal.nan = FVal.add (a.getD i FVal.nan) (b.getD i FVal.nan)
  | _ :: _, _ :: _, 0, _, _ => rfl
  | _ :: a, _ :: b, (i+1), ha, hb => by
      simpa [addVec] using addVec_getD a b i (by simpa using ha) (by simpa using hb)
  | [], _, i, ha, _ => absurd ha (by simp)
  | _ :: _, [], i, _, hb => absurd hb (by simp)

theorem foldl_addVec_length : ∀ (cs : List (List FVal)) (acc : List FVal),
    (∀ c ∈ cs, c.length = acc.length) → (cs.foldl addVec acc).length = acc.length
  | [], _, _ => rfl
  | c :: cs, acc, hlen => by
      have hc : c.length = acc.length := hlen c (by simp)
      have h1 : (addVec acc c).length = acc.length := addVec_length acc c hc
      rw [List.foldl_cons,
        foldl_addVec_length cs (addVec acc c)
          (fun c' hc' => by rw [h1]; exact hlen c' (List.mem_cons_of_mem _ hc'))]
      exact h1

theorem foldl_addVec_getD : ∀ (cs : List (List FVal)) (acc : List FVal) (i : ℕ),
    i < acc.length → (∀ c ∈ cs, c.length = acc.length) →
    (cs.foldl addVec acc).getD i FVal.nan
      = (cs.map (fun c => c.getD i FVal.nan)).foldl FVal.add (acc.getD i FVal.nan)
  | [], _, _, _, _ => rfl
  | c :: cs, acc, i, hi, hlen => by
      have hc : c.length = acc.length := hlen c (by simp)
      have h1 : (addVec acc c).length = acc.length := addVec_length acc c hc
      have ih := foldl_addVec_getD cs (addVec acc c) i (h1 ▸ hi)
        (fun c' hc' => by rw [h1]; exact hlen c' (List.mem_cons_of_mem _ hc'))
      rw [List.foldl_cons, ih, List.map_cons, List.foldl_cons,
        addVec_getD acc c i hi (hc ▸ hi)]

theorem foldl_add_isNan : ∀ (l : List FVal) (acc : FVal),
    (l.foldl FVal.add acc).isNan = (acc.isNan || l.any FVal.isNan)
  | [], acc => by simp
  | x :: l, acc => by
      rw [List.foldl_cons, foldl_add_isNan l (FVal.add acc x), FVal.isNan_add]
      simp [Bool.or_assoc]

theorem foldl_add_val : ∀ (l : List FVal) (q : ℚ), (∀ v ∈ l, v.isNan = false) →
    l.foldl FVal.add (FVal.val q) = FVal.val (q + (l.map FVal.toQ).sum)
  | [], q, _ => by simp
  | x :: l, q, h => by
      cases x with
      | nan => simpa [FVal.isNan] using h FVal.nan (List.mem_cons_self _ _)
      | val a =>
          rw [List.foldl_cons]
          show List.foldl FVal.add (FVal.val (q + a)) l = _
          rw [foldl_add_val l (q + a) (fun v hv => h v (List.mem_cons_of_mem _ hv))]
          simp [FVal.toQ]
          ring

/-- C1: for every generated batch (of size `B`) and every list of reward
components whose tensors have length `B` and carry no NaN,
`ReinforceReward.forward` returns a per-sample reward tensor of length `B`
equal to the elementwise sum, over the components in order, of the tensors
they return. -/
theorem reinforce_forward_sums_components (B : ℕ) (components : List (List FVal))
    (hlen : ∀ c ∈ components, c.length = B)
    (hnan : ∀ c ∈ components, ∀ v ∈ c, v.isNan = false) :
    ReinforceReward.forward B components = Except.ok (elemwiseSum B components) ∧
    (elemwiseSum B components).length = B := by
  have hlenE : (elemwiseSum B components).length = B := by simp [elemwiseSum]
  have hlen' : ∀ c ∈ components, c.length = (List.replicate B (FVal.val 0)).length := by
    intro c hc; rw [List.length_replicate]; exact hlen c hc
  set total := components.foldl addVec (List.replicate B (FVal.val 0)) with htotal
  have hTotLen : total.length = B := by
    rw [htotal, foldl_addVec_length _ _ hlen', List.length_replicate]
  have hpt : ∀ i, i < B → total.getD i FVal.nan
      = FVal.val ((components.map (fun c => (c.getD i FVal.nan).toQ)).sum) := by
    intro i hi
    have hbase : (List.replicate B (FVal.val 0)).getD i FVal.nan = FVal.val 0 := by
      rw [List.getD_eq_getElem _ _ (by simpa using hi), List.getElem_replicate]
    rw [htotal, foldl_addVec_getD components _ i (by simpa using hi) hlen', hbase,
      foldl_add_val]
    · rw [List.map_map]
      norm_num
      rfl
    · intro v hv
      rcases List.mem_map.mp hv with ⟨c, hc, rfl⟩
      have hic : i < c.length := by rw [hlen c hc]; exact hi
      rw [List.getD_eq_getElem _ _ hic]
      exact hnan c hc _ (List.getElem_mem hic)
  have hnoNan : total.any FVal.isNan = false := by
    rw [List.any_eq_false]
    intro v hv
    rcases List.mem_iff_getElem.mp hv with ⟨i, hilt, rfl⟩
    have hiB : i < B := hTotLen ▸ hilt
    rw [← List.getD_eq_getElem total FVal.nan hilt, hpt i hiB]
    simp [FVal.isNan]
  have heq : total = elemwiseSum B components := by
    apply List.ext_getElem (by rw [hTotLen, hlenE])
    intro n h1 h2
    have hnB : n < B := hTotLen ▸ h1
    rw [← List.getD_eq_getElem total FVal.nan h1, hpt n hnB]
    simp [elemwiseSum]
  have hfwd : ReinforceReward.forward B components
      = if total.any FVal.isNan then Except.error "NaN values found in rewards."
        else Except.ok total := rfl
  refine ⟨?_, hlenE⟩
  rw [hfwd, hnoNan]
  simp [heq]

/-- Witness for C1: a 2-sample batch with two constant components `[1.0, 1.0]`
and `[2.0, 2.0]` aggregates to `[3.0, 3.0]`. -/
theorem reinforce_forward_sums_components_witness :
    ReinforceReward.forward 2 [[FVal.val 1, FVal.val 1], [FVal.val 2, FVal.val 2]]
      = Except.ok [FVal.val 3, FVal.val 3] := by
  have h := reinforce_forward_sums_components 2
    [[FVal.val 1, FVal.val 1], [FVal.val 2, FVal.val 2]] (by decide) (by decide)
  rw [h.1]
  exact congrArg Except.ok (by norm_num [elemwiseSum, List.range_succ, FVal.toQ])

/-- C2: given per-sample component tensors of the batch size,
`ReinforceReward.forward` raises the reward-computation error (Python
`ValueError`, the spec's `RewardComputationError`) exactly when the summed
reward tensor would contain a NaN entry, i.e. when some component produced a
NaN; otherwise it returns the tensor and no error is raised. -/
theorem reinforce_forward_nan_guard (B : ℕ) (components : List (List FVal))
    (hlen : ∀ c ∈ components, c.length = B) :
    (∃ e, ReinforceReward.forward B components = Except.error e)
      ↔ ∃ c ∈ components, ∃ v ∈ c, v.isNan = true := by
  have hlen' : ∀ c ∈ components, c.length = (List.replicate B (FVal.val 0)).length := by
    intro c hc; rw [List.length_replicate]; exact hlen c hc
  set total := components.foldl addVec (List.replicate B (FVal.val 0)) with htotal
  have hTotLen : total.length = B := by
    rw [htotal, foldl_addVec_length _ _ hlen', List.length_replicate]
  have hcol : ∀ i, i < B → (total.getD i FVal.nan).isNan
      = (components.map (fun c => c.getD i FVal.nan)).any FVal.isNan := by
    intro i hi
    have hbase : (List.replicate B (FVal.val 0)).getD i FVal.nan = FVal.val 0 := by
      rw [List.getD_eq_getElem _ _ (by simpa using hi), List.getElem_replicate]
    rw [htotal, foldl_addVec_getD components _ i (by simpa using hi) hlen', hbase,
      foldl_add_isNan]
    simp [FVal.isNan]
  have hkey : total.any FVal.isNan = true
      ↔ ∃ c ∈ components, ∃ v ∈ c, v.isNan = true := by
    constructor
    · intro h
      rcases List.any_eq_true.mp h with ⟨v, hv, hvnan⟩
      rcases List.mem_iff_getElem.mp hv with ⟨i, hilt, rfl⟩
      have hiB : i < B := hTotLen ▸ hilt
      rw [← List.getD_eq_getElem total FVal.nan hilt, hcol i hiB] at hvnan
      rcases List.any_eq_true.mp hvnan with ⟨w, hw, hwnan⟩
      rcases List.mem_map.mp hw with ⟨c, hc, rfl⟩
      refine ⟨c, hc, c.getD i FVal.nan, ?_, hwnan⟩
      have hic : i < c.length := by rw [hlen c hc]; exact hiB
      rw [List.getD_eq_getElem _ _ hic]
      exact List.getElem_mem hic
    · rintro ⟨c, hc, v, hv, hvnan⟩
      rcases List.mem_iff_getElem.mp hv with ⟨i, hic, rfl⟩
      have hiB : i < B := by rw [← hlen c hc]; exact hic
      apply List.any_eq_true.mpr
      have hilt : i < total.length := by rw [hTotLen]; exact hiB
      refine ⟨total.getD i FVal.nan, ?_, ?_⟩
      · rw [List.getD_eq_getElem _ _ hilt]; exact List.getElem_mem hilt
      · rw [hcol i hiB]
        apply List.any_eq_true.mpr
        refine ⟨c.getD i FVal.nan, List.mem_map_of_mem _ hc, ?_⟩
        rw [List.getD_eq_getElem _ _ hic]
        exact hvnan
  have hfwd : ReinforceReward.forward B components
      = if total.any FVal.isNan then Except.error "NaN values found in rewards."
        else Except.ok total := rfl
  constructor
  · rintro ⟨e, he⟩
    rw [hfwd] at he
    by_cases hnan : total.any FVal.isNan = true
    · exact hkey.mp hnan
    · simp [hnan] at he
  · intro h
    exact ⟨"NaN values found in rewards.", by rw [hfwd, if_pos (hkey.mpr h)]⟩

/-- Witness for C2: a component deliberately returning NaN for one of two
samples makes the aggregator raise rather than return a tensor. -/
theorem reinforce_forward_nan_guard_witness :
    ∃ e, ReinforceReward.forward 2 [[FVal.val 1, FVal.nan]] = Except.error e :=
  (reinforce_forward_nan_guard 2 [[FVal.val 1, FVal.nan]] (by decide)).mpr
    ⟨[FVal.val 1, FVal.nan], by decide, FVal.nan, by decide, rfl⟩

theorem meanF_map_val (x : List ℚ) (hx : x ≠ []) :
    meanF (x.map FVal.val) = FVal.val (x.sum / x.length) := by
  have h1 : (x.map FVal.val).isEmpty = false := by
    cases x with
    | nil => exact absurd rfl hx
    | cons a l => rfl
  have h2 : (x.map FVal.val).any FVal.isNan = false := by
    rw [List.any_eq_false]
    intro v hv
    rcases List.mem_map.mp hv with ⟨q, _, rfl⟩
    simp [FVal.isNan]
  rw [meanF, if_neg (by simp [h1, h2])]
  congr 1
  rw [List.map_map]
  have hid : FVal.toQ ∘ FVal.val = id := by funext q; rfl
  rw [hid, List.map_id, List.length_map]

/-- C6 counterexample: constructing the reward aggregator with the
unrecognized normalization name "bogus" succeeds — `__init__` stores the name
without examining it, so no error is raised at construction time. -/
theorem reward_init_accepts_unknown_name :
    ReinforceReward.init (fun _ => Except.ok ()) [] (some "bogus") (1 / 10000)
      = Except.ok { normalize_fn := some "bogus", eps := 1 / 10000,
                    hasMetrics := false } := rfl

/-- C6 (amended): an unrecognized normalization name is not rejected at
construction time — construction stores it unchecked and succeeds — and the
unknown-name configuration error (Python `ValueError`) is raised at the first
call of the `normalize` step instead, whatever the reward tensor. -/
theorem reward_unknown_name_fails_at_normalize (name : String)
    (hname : name ∉ ["norm", "std", "subtract_mean", "clip"])
    (mkMetrics : List String → Except String Unit) (eps eps2 : ℚ)
    (normFn stdFn : List FVal → ℚ → List FVal) (rewards : List FVal) :
    ReinforceReward.init mkMetrics [] (some name) eps
      = Except.ok { normalize_fn := some name, eps := eps, hasMetrics := false } ∧
    ReinforceReward.normalize normFn stdFn (some name) eps2 rewards
      = Except.error "Unknown normalization type. Use norm, std, clip, or None." := by
  have h1 : ¬(name = "norm") := fun h => hname (by simp [h])
  have h2 : ¬(name = "std") := fun h => hname (by simp [h])
  have h3 : ¬(name = "subtract_mean") := fun h => hname (by simp [h])
  have h4 : ¬(name = "clip") := fun h => hname (by simp [h])
  exact ⟨rfl, by simp [ReinforceReward.normalize, h1, h2, h3, h4]⟩

/-- Witness for the amended C6: with the name "unknown_fn", construction
succeeds and normalization raises. -/
theorem reward_unknown_name_fails_at_normalize_witness :
    ReinforceReward.init (fun _ => Except.ok ()) [] (some "unknown_fn") 1
      = Except.ok { normalize_fn := some "unknown_fn", eps := 1,
                    hasMetrics := false } ∧
    ReinforceReward.normalize (fun r _ => r) (fun r _ => r) (some "unknown_fn") 1
        [FVal.val 2]
      = Except.error "Unknown normalization type. Use norm, std, clip, or None." :=
  reward_unknown_name_fails_at_normalize "unknown_fn" (by decide)
    (fun _ => Except.ok ()) 1 1 (fun r _ => r) (fun r _ => r) [FVal.val 2]

/-- C7: the recognized normalization names implement exactly the stated
transforms: `None` is the identity on every reward tensor, "subtract_mean"
returns `x - mean(x)`, "clip" clamps every entry into [-1, 1]; and composing
the aggregation of the constant components [1, 1] and [2, 2] with "clip"
yields [1, 1]. -/
theorem reward_normalize_transforms (normFn stdFn : List FVal → ℚ → List FVal)
    (eps : ℚ) (x : List ℚ) (y : List FVal) :
    ReinforceReward.normalize normFn stdFn none eps y = Except.ok y ∧
    ReinforceReward.normalize normFn stdFn (some "subtract_mean") eps (x.map FVal.val)
      = Except.ok (x.map (fun q => FVal.val (q - x.sum / x.length))) ∧
    ReinforceReward.normalize normFn stdFn (some "clip") eps (x.map FVal.val)
      = Except.ok (x.map (fun q => FVal.val (max (-1) (min 1 q)))) ∧
    (ReinforceReward.forward 2 [[FVal.val 1, FVal.val 1],
        [FVal.val 2, FVal.val 2]]).bind
        (ReinforceReward.normalize normFn stdFn (some "clip") eps)
      = Except.ok [FVal.val 1, FVal.val 1] := by
  have hclip : ∀ z : List ℚ,
      ReinforceReward.normalize normFn stdFn (some "clip") eps (z.map FVal.val)
        = Except.ok (z.map (fun q => FVal.val (max (-1) (min 1 q)))) := by
    intro z
    have h0 : ReinforceReward.normalize normFn stdFn (some "clip") eps (z.map FVal.val)
        = Except.ok ((z.map FVal.val).map FVal.clamp) := rfl
    rw [h0, List.map_map]
    rfl
  refine ⟨by simp [ReinforceReward.normalize], ?_, hclip x, ?_⟩
  · cases hx : x with
    | nil => simp [ReinforceReward.normalize]
    | cons a l =>
      have h0 : ReinforceReward.normalize normFn stdFn (some "subtract_mean") eps
          ((a :: l).map FVal.val)
          = Except.ok (((a :: l).map FVal.val).map
              (fun v => v.sub (meanF ((a :: l).map FVal.val)))) := rfl
      rw [h0, meanF_map_val (a :: l) (by simp), List.map_map]
      rfl
  · have hf : ReinforceReward.forward 2 [[FVal.val 1, FVal.val 1],
        [FVal.val 2, FVal.val 2]] = Except.ok [FVal.val 3, FVal.val 3] := by
      norm_num [ReinforceReward.forward, addVec, List.replicate, FVal.add, FVal.isNan]
    rw [hf]
    show ReinforceReward.normalize normFn stdFn (some "clip") eps
        [FVal.val 3, FVal.val 3] = _
    have h3 : [FVal.val 3, FVal.val 3] = ([3, 3] : List ℚ).map FVal.val := rfl
    rw [h3, hclip [3, 3]]
    norm_num

/-- Result of one `hf_hub_download` call (src/utils/checkpoint_downloader.py):
either a local file path or a raised download error. -/
inductive FetchResult where
  | ok (path : String)
  | err (msg : String)
deriving DecidableEq, Repr

/-- Observable events of one `get_checkpoint` run: a download attempt (with
its 0-based attempt index) or a `time.sleep(retry_delay)`. -/
inductive CkptEvent where
  | fetch (attempt : ℕ)
  | sleep (delay : ℚ)
deriving DecidableEq, Repr

def CkptEvent.isFetch : CkptEvent → Bool
  | .fetch _ => true
  | .sleep _ => false

def CkptEvent.isSleep : CkptEvent → Bool
  | .fetch _ => false
  | .sleep _ => true

/-- Message of the `ValueError` raised by the checksum verification. -/
def checksumMismatchMsg (actual expected : String) : String :=
  "Checksum mismatch: " ++ actual ++ " != " ++ expected

/-- The retry loop of `get_checkpoint` (src/utils/checkpoint_downloader.py,
lines 47-77).  `fetch` is `hf_hub_download` (indexed by attempt number, since
each iteration re-invokes it), `digest` is `calculate_sha256`, `expected` the
manifest digest `ckpt_info["sha256"]`.  State: current `attempt` index, the
number of `remaining` loop iterations, and `last_error`.  Returns the result
(`.ok path`, or `.error last_error` for the final `RuntimeError ... from
last_error`) together with the trace of fetch/sleep events; the code sleeps
only when `attempt < retry_attempts - 1`, i.e. when iterations remain. -/
def getCheckpointLoop (fetch : ℕ → FetchResult) (digest : String → String)
    (expected : String) (retry_delay : ℚ) :
    ℕ → ℕ → Option String → Except (Option String) String × List CkptEvent
  | _, 0, lastError => (Except.error lastError, [])
  | attempt, remaining + 1, _lastError =>
    match fetch attempt with
    | .ok path =>
        if digest path = expected then (Except.ok path, [.fetch attempt])
        else
          let e := checksumMismatchMsg (digest path) expected
          let rest := getCheckpointLoop fetch digest expected retry_delay
            (attempt + 1) remaining (some e)
          (rest.1, .fetch attempt
            :: (if remaining = 0 then [] else [.sleep retry_delay]) ++ rest.2)
    | .err e =>
        let rest := getCheckpointLoop fetch digest expected retry_delay
          (attempt + 1) remaining (some e)
        (rest.1, .fetch attempt
          :: (if remaining = 0 then [] else [.sleep retry_delay]) ++ rest.2)

/-- `get_checkpoint` (src/utils/checkpoint_downloader.py, lines 30-77) after
the manifest lookup: run the retry loop from attempt 0 with `retry_attempts`
iterations and `last_error = None`. -/
def get_checkpoint (fetch : ℕ → FetchResult) (digest : String → String)
    (expected : String) (retry_attempts : ℕ) (retry_delay : ℚ) :
    Except (Option String) String × List CkptEvent :=
  getCheckpointLoop fetch digest expected retry_delay 0 retry_attempts none

/-- Attempt `i` fails to produce a verified file: the download raises, or the
downloaded file's digest mismatches the manifest. -/
def attemptFails (fetch : ℕ → FetchResult) (digest : String → String)
    (expected : String) (i : ℕ) : Prop :=
  match fetch i with
  | .ok p => digest p ≠ expected
  | .err _ => True

/-- The error message attempt `i` contributes as `last_error`. -/
def causeOf (fetch : ℕ → FetchResult) (digest : String → String)
    (expected : String) (i : ℕ) : String :=
  match fetch i with
  | .ok p => checksumMismatchMsg (digest p) expected
  | .err e => e

/-- The event trace of `r` consecutive failing attempts starting at attempt
`a`: a fetch per attempt, a single fixed-delay sleep between consecutive
fetches, and no sleep after the last one. -/
def failTrace (d : ℚ) : ℕ → ℕ → List CkptEvent
  | _, 0 => []
  | a, r + 1 =>
      CkptEvent.fetch a :: (if r = 0 then [] else [CkptEvent.sleep d])
        ++ failTrace d (a + 1) r

theorem getCheckpointLoop_exhaust (fetch : ℕ → FetchResult) (digest : String → String)
    (expected : String) (d : ℚ) (r : ℕ) :
    ∀ (a : ℕ) (le : Option String),
    (∀ i, a ≤ i → i < a + r → attemptFails fetch digest expected i) →
    getCheckpointLoop fetch digest expected d a r le
      = (Except.error (if r = 0 then le
            else some (causeOf fetch digest expected (a + r - 1))),
         failTrace d a r) := by
  induction r with
  | zero =>
      intro a le _
      simp [getCheckpointLoop, failTrace]
  | succ r ih =>
      intro a le hfail
      have hfa : attemptFails fetch digest expected a :=
        hfail a (Nat.le_refl a) (by omega)
      have hnext : ∀ (e : String),
          getCheckpointLoop fetch digest expected d (a + 1) r (some e)
            = (Except.error (if r = 0 then some e
                  else some (causeOf fetch digest expected (a + 1 + r - 1))),
               failTrace d (a + 1) r) :=
        fun e => ih (a + 1) (some e) (fun i h1 h2 => hfail i (by omega) (by omega))
      have harith : a + 1 + r - 1 = a + (r + 1) - 1 := by omega
      cases hc : fetch a with
      | ok path =>
          have hbad : digest path ≠ expected := by
            simpa only [attemptFails, hc] using hfa
          simp only [getCheckpointLoop, hc, if_neg hbad,
            hnext (checksumMismatchMsg (digest path) expected)]
          by_cases hr : r = 0
          · subst hr
            simp [failTrace, causeOf, hc]
          · simp [failTrace, hr, harith]
      | err e =>
          simp only [getCheckpointLoop, hc, hnext e]
          by_cases hr : r = 0
          · subst hr
            simp [failTrace, causeOf, hc]
          · simp [failTrace, hr, harith]

theorem failTrace_countP_fetch (d : ℚ) : ∀ (r a : ℕ),
    (failTrace d a r).countP CkptEvent.isFetch = r
  | 0, _ => rfl
  | r + 1, a => by
      by_cases hr : r = 0 <;>
        simp [failTrace, hr, CkptEvent.isFetch,
          failTrace_countP_fetch d r (a + 1)]

theorem failTrace_countP_sleep (d : ℚ) : ∀ (r a : ℕ),
    (failTrace d a r).countP CkptEvent.isSleep = r - 1
  | 0, _ => rfl
  | r + 1, a => by
      by_cases hr : r = 0
      · simp [failTrace, hr, CkptEvent.isSleep]
      · simp [failTrace, hr, CkptEvent.isSleep,
          failTrace_countP_sleep d r (a + 1)]
        omega

theorem getCheckpointLoop_ok_digest (fetch : ℕ → FetchResult)
    (digest : String → String) (expected : String) (d : ℚ) :
    ∀ (r a : ℕ) (le : Option String) (p : String),
    (getCheckpointLoop fetch digest expected d a r le).1 = Except.ok p →
    digest p = expected := by
  intro r
  induction r with
  | zero =>
      intro a le p h
      simp [getCheckpointLoop] at h
  | succ r ih =>
      intro a le p h
      cases hc : fetch a with
      | ok path =>
          by_cases hd : digest path = expected
          · simp only [getCheckpointLoop, hc, if_pos hd] at h
            cases h
            exact hd
          · simp only [getCheckpointLoop, hc, if_neg hd] at h
            exact ih (a + 1) _ p h
      | err e =>
          simp only [getCheckpointLoop, hc] at h
          exact ih (a + 1) _ p h

/-- C4: whenever `get_checkpoint` returns a path successfully, the digest of
the file at that path (as computed by `calculate_sha256`) equals the expected
digest recorded in the manifest entry. -/
theorem get_checkpoint_digest_matches (fetch : ℕ → FetchResult)
    (digest : String → String) (expected : String) (k : ℕ) (d : ℚ) (p : String)
    (h : (get_checkpoint fetch digest expected k d).1 = Except.ok p) :
    digest p = expected :=
  getCheckpointLoop_ok_digest fetch digest expected d k 0 none p h

/-- Witness for C4: a concrete run whose first attempt verifies. -/
theorem get_checkpoint_digest_matches_witness :
    (fun _ : String => "abc") "file.ckpt" = "abc" :=
  get_checkpoint_digest_matches (fun _ => FetchResult.ok "file.ckpt")
    (fun _ => "abc") "abc" 3 2 "file.ckpt" rfl

/-- C3: when every download attempt yields the same already-cached file whose
digest mismatches the manifest, `get_checkpoint` re-invokes the fetch on each
of the `k` retry attempts rather than returning the stale cached path, and
after exhausting the retries it raises the final error (Python `RuntimeError`,
the spec's `ChecksumOrFetchError`) wrapping the checksum-mismatch cause; it
returns no path. -/
theorem get_checkpoint_stale_cache_refetches (fetch : ℕ → FetchResult)
    (digest : String → String) (expected : String) (k : ℕ) (d : ℚ)
    (cachedPath : String) (hk : 0 < k)
    (hfetch : ∀ i, i < k → fetch i = FetchResult.ok cachedPath)
    (hbad : digest cachedPath ≠ expected) :
    (get_checkpoint fetch digest expected k d).1
        = Except.error (some (checksumMismatchMsg (digest cachedPath) expected)) ∧
    (get_checkpoint fetch digest expected k d).2.countP CkptEvent.isFetch = k := by
  have hfail : ∀ i, 0 ≤ i → i < 0 + k → attemptFails fetch digest expected i := by
    intro i _ hi
    simp only [attemptFails, hfetch i (by omega)]
    exact hbad
  have h := getCheckpointLoop_exhaust fetch digest expected d k 0 none hfail
  have hcause : causeOf fetch digest expected (0 + k - 1)
      = checksumMismatchMsg (digest cachedPath) expected := by
    simp only [causeOf, hfetch (0 + k - 1) (by omega)]
  rw [get_checkpoint] at *
  rw [h]
  refine ⟨?_, ?_⟩
  · have hcause2 : causeOf fetch digest expected (k - 1)
        = checksumMismatchMsg (digest cachedPath) expected := by
      simpa using hcause
    simp [hk.ne', hcause2]
  · exact failTrace_countP_fetch d k 0

/-- Witness for C3: three attempts all return the same stale cached file with
a wrong digest; the resolver errors with the mismatch cause and fetched three
times. -/
theorem get_checkpoint_stale_cache_refetches_witness :
    (get_checkpoint (fun _ => FetchResult.ok "/cache/stale.ckpt")
        (fun _ => "deadbeef") "cafe" 3 2).1
      = Except.error (some (checksumMismatchMsg "deadbeef" "cafe")) ∧
    (get_checkpoint (fun _ => FetchResult.ok "/cache/stale.ckpt")
        (fun _ => "deadbeef") "cafe" 3 2).2.countP CkptEvent.isFetch = 3 :=
  get_checkpoint_stale_cache_refetches (fun _ => FetchResult.ok "/cache/stale.ckpt")
    (fun _ => "deadbeef") "cafe" 3 2 "/cache/stale.ckpt" (by omega)
    (fun _ _ => rfl) (by decide)

/-- C5: with `retry_attempts = k` (k ≥ 1) and fixed `retry_delay = d`, if
every fetch-and-verify attempt fails, `get_checkpoint` performs exactly `k`
fetch attempts, sleeps the fixed delay `d` exactly once between consecutive
attempts and not after the last (the trace is `failTrace d 0 k`, with `k`
fetch events and `k - 1` sleep events), and terminates raising the final
error wrapping the last attempt's underlying cause; the loop is structurally
bounded by `k`, so it never loops unboundedly. -/
theorem get_checkpoint_retry_exhaustion (fetch : ℕ → FetchResult)
    (digest : String → String) (expected : String) (k : ℕ) (d : ℚ)
    (hk : 0 < k)
    (hfail : ∀ i, i < k → attemptFails fetch digest expected i) :
    get_checkpoint fetch digest expected k d
      = (Except.error (some (causeOf fetch digest expected (k - 1))),
         failTrace d 0 k) ∧
    (failTrace d 0 k).countP CkptEvent.isFetch = k ∧
    (failTrace d 0 k).countP CkptEvent.isSleep = k - 1 := by
  have h := getCheckpointLoop_exhaust fetch digest expected d k 0 none
    (fun i _ hi => hfail i (by omega))
  rw [get_checkpoint, h]
  refine ⟨?_, failTrace_countP_fetch d k 0, failTrace_countP_sleep d k 0⟩
  simp [hk.ne']

/-- Witness for C5: two attempts, both failing with a download error; the
trace is fetch, one sleep of the configured delay, fetch, and the final error
wraps the last cause. -/
theorem get_checkpoint_retry_exhaustion_witness :
    get_checkpoint (fun _ => FetchResult.err "boom") (fun _ => "h") "x" 2 5
      = (Except.error (some "boom"),
         [CkptEvent.fetch 0, CkptEvent.sleep 5, CkptEvent.fetch 1]) := by
  have h := get_checkpoint_retry_exhaustion (fun _ => FetchResult.err "boom")
    (fun _ => "h") "x" 2 5 (by omega) (fun i _ => by simp [attemptFails])
  rw [h.1]
  rfl

/-- A pymatgen `Lattice`: its six cell parameters (a, b, c, alpha, beta,
gamma) and its matrix. -/
structure PmgLattice where
  parameters : List ℚ
  matrix : List (List ℚ)
deriving DecidableEq, Repr

/-- A pymatgen `Structure`: lattice, species and fractional coordinates. -/
structure PmgStructure where
  lattice : PmgLattice
  species : List ℕ
  frac_coords : List (List ℚ)
deriving DecidableEq, Repr

/-- One row of the split table `{split}.csv` consumed by `MPDataset`: a
material id and a CIF string. -/
structure RawRow where
  material_id : String
  cif : String
deriving DecidableEq, Repr

/-- The canonical structure rebuilt in `MPDataset.process` (mp_dataset.py,
lines 104-111): `Structure(lattice=Lattice.from_parameters(*reduced.lattice.
parameters), species=reduced.species, coords=reduced.frac_coords,
coords_are_cartesian=False)`.  `latticeFromParameters` stands for pymatgen's
`Lattice.from_parameters`. -/
def canonicalFromReduced (latticeFromParameters : List ℚ → PmgLattice)
    (reduced : PmgStructure) : PmgStructure :=
  { lattice := latticeFromParameters reduced.lattice.parameters,
    species := reduced.species,
    frac_coords := reduced.frac_coords }

/-- Optional `pre_transform` application during processing. -/
def applyPreTransform {G : Type} (preTransform : Option (G → G)) (g : G) : G :=
  match preTransform with
  | some f => f g
  | none => g

/-- `MPDataset.process` (mp_dataset.py, lines 89-123): for every row of the
split table, parse the CIF string (`fromStr` = `Structure.from_str`), apply
Niggli reduction (`getReducedStructure` = pymatgen's
`Structure.get_reduced_structure`), rebuild the canonical structure from the
reduced cell's lattice parameters, species and fractional coordinates,
convert it to a graph (`toPygData` = `pmg_structure_to_pyg_data`, given the
row's material id), then optionally map `pre_transform` over the graphs; the
final collate packs this list unchanged. -/
def MPDataset.process {G : Type} (fromStr : String → PmgStructure)
    (getReducedStructure : PmgStructure → PmgStructure)
    (latticeFromParameters : List ℚ → PmgLattice)
    (toPygData : PmgStructure → String → G)
    (preTransform : Option (G → G)) (rows : List RawRow) : List G :=
  let data_list := rows.map (fun row =>
    toPygData
      (canonicalFromReduced latticeFromParameters
        (getReducedStructure (fromStr row.cif)))
      row.material_id)
  match preTransform with
  | some f => data_list.map f
  | none => data_list

/-- C8: `MPDataset.process` encodes every row from the canonical structure —
the one rebuilt from the Niggli-reduced cell's lattice parameters, species
and fractional coordinates of the parsed CIF — never from the unreduced
cell: the processed list has one graph per row, and its `i`-th entry is
exactly the (optionally pre-transformed) encoding of the canonicalized
`i`-th row. -/
theorem mp_process_canonicalizes {G : Type} (fromStr : String → PmgStructure)
    (getReducedStructure : PmgStructure → PmgStructure)
    (latticeFromParameters : List ℚ → PmgLattice)
    (toPygData : PmgStructure → String → G) (preTransform : Option (G → G))
    (rows : List RawRow) (i : ℕ) (hi : i < rows.length) :
    (MPDataset.process fromStr getReducedStructure latticeFromParameters
        toPygData preTransform rows).length = rows.length ∧
    (MPDataset.process fromStr getReducedStructure latticeFromParameters
        toPygData preTransform rows)[i]?
      = some (applyPreTransform preTransform
          (toPygData
            (canonicalFromReduced latticeFromParameters
              (getReducedStructure (fromStr (rows.getD i ⟨"", ""⟩).cif)))
            (rows.getD i ⟨"", ""⟩).material_id)) := by
  have hrow : rows[i]? = some (rows.getD i ⟨"", ""⟩) := by
    rw [List.getElem?_eq_getElem hi, List.getD_eq_getElem _ _ hi]
  cases preTransform with
  | none =>
      refine ⟨by simp [MPDataset.process], ?_⟩
      show (rows.map (fun row =>
          toPygData
            (canonicalFromReduced latticeFromParameters
              (getReducedStructure (fromStr row.cif)))
            row.material_id))[i]? = _
      rw [List.getElem?_map, hrow]
      rfl
  | some f =>
      refine ⟨by simp [MPDataset.process], ?_⟩
      show ((rows.map (fun row =>
          toPygData
            (canonicalFromReduced latticeFromParameters
              (getReducedStructure (fromStr row.cif)))
            row.material_id)).map f)[i]? = _
      rw [List.getElem?_map, List.getElem?_map, hrow]
      rfl

/-- Witness for C8: one row; the reduction step rewrites the lattice
parameters to `[1]`, and the encoded graph indeed carries the reduced,
rebuilt parameters rather than the parsed ones (`[2]`). -/
theorem mp_process_canonicalizes_witness :
    (MPDataset.process (fun _ => ⟨⟨[2], [[2]]⟩, [6, 8], [[0, 0, 0]]⟩)
        (fun st => ⟨⟨[1], [[1]]⟩, st.species, st.frac_coords⟩)
        (fun ps => ⟨ps, []⟩)
        (fun st _ => st.lattice.parameters)
        none [⟨"mp-1", "cif1"⟩]).length = 1 ∧
    (MPDataset.process (fun _ => ⟨⟨[2], [[2]]⟩, [6, 8], [[0, 0, 0]]⟩)
        (fun st => ⟨⟨[1], [[1]]⟩, st.species, st.frac_coords⟩)
        (fun ps => ⟨ps, []⟩)
        (fun st _ => st.lattice.parameters)
        none [⟨"mp-1", "cif1"⟩])[0]?
      = some [1] := by
  have h := mp_process_canonicalizes (fun _ => ⟨⟨[2], [[2]]⟩, [6, 8], [[0, 0, 0]]⟩)
    (fun st => ⟨⟨[1], [[1]]⟩, st.species, st.frac_coords⟩)
    (fun ps => ⟨ps, []⟩)
    (fun st _ => st.lattice.parameters)
    none [⟨"mp-1", "cif1"⟩] 0 (by decide)
  exact ⟨h.1, by rw [h.2]; rfl⟩

/-- The dataframe loaded by `MPDataset.__init__` from the split CSV: the
`material_id` column, the column names, and the cell values used for
condition lookup. -/
structure DataFrameModel where
  material_ids : List String
  columns : List String
  cellValue : ℕ → String → ℚ

/-- `target_condition`: a single column name or a collection of them. -/
inductive TargetCondition where
  | single (c : String)
  | multi (cs : List String)

/-- Python dict assignment `d[k] = v`: replace the value under an existing
key, otherwise append the new binding. -/
def dictInsert (d : List (String × List ℚ)) (k : String) (v : List ℚ) :
    List (String × List ℚ) :=
  if d.any (fun kv => kv.1 == k) then
    d.map (fun kv => if kv.1 = k then (k, v) else kv)
  else d ++ [(k, v)]

/-- Python dict lookup `d[k]` as an option (a missing key is a `KeyError`). -/
def dictFind (d : List (String × List ℚ)) (k : String) : Option (List ℚ) :=
  (d.find? (fun kv => kv.1 == k)).map (fun kv => kv.2)

/-- The feature loading of `MPDataset.__init__` (mp_dataset.py, lines 59-67):
when `mace_features=True`, iterate the dataframe's `material_id` column and
store the HDF5 entry for each id present in the feature file (`h5` maps an id
to its feature vector when the file has that key). -/
def buildMaceFeaturesDict (ids : List String) (h5 : String → Option (List ℚ)) :
    List (String × List ℚ) :=
  ids.foldl (fun d mid =>
    match h5 mid with
    | some v => dictInsert d mid v
    | none => d) []

/-- A sample returned by `MPDataset.get`: the stored graph plus the
dynamically attached condition values and MACE features. -/
structure PygSample (G : Type) where
  base : G
  y : Option (List (String × ℚ))
  mace_features : Option (List ℚ)

/-- The condition-attachment step of `MPDataset.get` (mp_dataset.py, lines
136-151): validate the requested condition columns against the dataframe and
produce the attached `y` mapping. -/
def attachCondition (df : DataFrameModel)
    (targetCondition : Option TargetCondition) (idx : ℕ) :
    Except String (Option (List (String × ℚ))) :=
  match targetCondition with
  | none => Except.ok none
  | some (.single c) =>
      if c ∈ df.columns then Except.ok (some [(c, df.cellValue idx c)])
      else Except.error "Condition not in dataframe columns"
  | some (.multi cs) =>
      if cs.all (fun t => decide (t ∈ df.columns)) then
        Except.ok (some (cs.map (fun t => (t, df.cellValue idx t))))
      else Except.error "Not all conditions found in dataframe columns"

/-- `MPDataset.get` (mp_dataset.py, lines 125-157): fetch the stored graph
(`baseGet` = `super().get`), optionally attach the condition values, and —
when `mace_features=True` — look the sample's material id up in the feature
dictionary; a missing key raises a Python `KeyError`. -/
def MPDataset.get {G : Type} (baseGet : ℕ → G) (df : DataFrameModel)
    (targetCondition : Option TargetCondition) (maceFeatures : Bool)
    (maceDict : List (String × List ℚ)) (idx : ℕ) :
    Except String (PygSample G) :=
  match attachCondition df targetCondition idx with
  | .error e => Except.error e
  | .ok y =>
      if maceFeatures then
        match dictFind maceDict (df.material_ids.getD idx "") with
        | none => Except.error ("KeyError: " ++ df.material_ids.getD idx "")
        | some v =>
            Except.ok { base := baseGet idx, y := y, mace_features := some v }
      else Except.ok { base := baseGet idx, y := y, mace_features := none }

theorem dictInsert_entries (d : List (String × List ℚ)) (k : String)
    (v : List ℚ) (P : String × List ℚ → Prop)
    (hd : ∀ kv ∈ d, P kv) (hkv : P (k, v)) :
    ∀ kv ∈ dictInsert d k v, P kv := by
  intro kv hkv2
  rw [dictInsert] at hkv2
  by_cases hc : d.any (fun kv => kv.1 == k) = true
  · rw [if_pos hc] at hkv2
    rcases List.mem_map.mp hkv2 with ⟨kv0, hkv0, rfl⟩
    by_cases he : kv0.1 = k
    · simpa [he] using hkv
    · simpa [he] using hd kv0 hkv0
  · rw [if_neg hc] at hkv2
    rcases List.mem_append.mp hkv2 with h | h
    · exact hd _ h
    · rcases List.mem_singleton.mp h with rfl
      exact hkv

theorem buildMaceFeaturesDict_sound (ids : List String)
    (h5 : String → Option (List ℚ)) :
    ∀ kv ∈ buildMaceFeaturesDict ids h5, h5 kv.1 = some kv.2 := by
  suffices h : ∀ (l : List String) (d : List (String × List ℚ)),
      (∀ kv ∈ d, h5 kv.1 = some kv.2) →
      ∀ kv ∈ l.foldl (fun d mid =>
        match h5 mid with
        | some v => dictInsert d mid v
        | none => d) d, h5 kv.1 = some kv.2 by
    exact h ids [] (by simp)
  intro l
  induction l with
  | nil => intro d hd kv hkv; exact hd kv hkv
  | cons mid rest ih =>
      intro d hd kv hkv
      rw [List.foldl_cons] at hkv
      cases hm : h5 mid with
      | none =>
          rw [hm] at hkv
          exact ih d hd kv hkv
      | some v =>
          rw [hm] at hkv
          exact ih (dictInsert d mid v)
            (dictInsert_entries d mid v _ hd (by simpa using hm)) kv hkv

theorem dictFind_absent (d : List (String × List ℚ)) (k : String)
    (h5 : String → Option (List ℚ))
    (hsound : ∀ kv ∈ d, h5 kv.1 = some kv.2)
    (habsent : h5 k = none) :
    dictFind d k = none := by
  rw [dictFind]
  cases hf : d.find? (fun kv => kv.1 == k) with
  | none => rfl
  | some kv =>
      exfalso
      have hmem := List.mem_of_find?_eq_some hf
      have hp : kv.1 = k := by
        have := List.find?_some hf
        exact eq_of_beq this
      have := hsound kv hmem
      rw [hp, habsent] at this
      exact Option.noConfusion this

/-- C10: with `mace_features=True`, the feature side-table built by
`__init__` holds only ids present in the HDF5 feature file (each stored
vector is that file's entry for the id); a later `get(idx)` for a sample
whose material id is absent from the file raises a `KeyError`; and no call
of `get` with `mace_features=True` ever returns a sample without its
`mace_features` attribute attached. -/
theorem mp_get_mace_features_guard {G : Type} (baseGet : ℕ → G)
    (df : DataFrameModel) (tc : Option TargetCondition)
    (h5 : String → Option (List ℚ)) (idx : ℕ)
    (y : Option (List (String × ℚ)))
    (hc : attachCondition df tc idx = Except.ok y)
    (habsent : h5 (df.material_ids.getD idx "") = none) :
    (∀ kv ∈ buildMaceFeaturesDict df.material_ids h5, h5 kv.1 = some kv.2) ∧
    MPDataset.get baseGet df tc true (buildMaceFeaturesDict df.material_ids h5) idx
      = Except.error ("KeyError: " ++ df.material_ids.getD idx "") ∧
    (∀ (maceDict : List (String × List ℚ)) (j : ℕ) (d : PygSample G),
      MPDataset.get baseGet df tc true maceDict j = Except.ok d →
      d.mace_features ≠ none) := by
  have hsound := buildMaceFeaturesDict_sound df.material_ids h5
  refine ⟨hsound, ?_, ?_⟩
  · rw [MPDataset.get, hc, dictFind_absent _ _ h5 hsound habsent]
    rfl
  · intro maceDict j d hok
    rw [MPDataset.get] at hok
    cases hac : attachCondition df tc j with
    | error e => rw [hac] at hok; exact absurd hok (by simp)
    | ok y2 =>
        rw [hac] at hok
        cases hdf : dictFind maceDict (df.material_ids.getD j "") with
        | none =>
            rw [hdf] at hok
            exact absurd hok (by simp)
        | some v =>
            rw [hdf] at hok
            cases hok
            simp

/-- Witness for C10: a dataframe with one id "mp-1", an empty HDF5 feature
file; `get 0` with `mace_features=True` raises the KeyError. -/
theorem mp_get_mace_features_guard_witness :
    MPDataset.get (fun _ => (0 : ℕ)) ⟨["mp-1"], [], fun _ _ => 0⟩ none true
        (buildMaceFeaturesDict ["mp-1"] (fun _ => none)) 0
      = Except.error ("KeyError: " ++ "mp-1") := by
  have h := mp_get_mace_features_guard (fun _ => (0 : ℕ))
    ⟨["mp-1"], [], fun _ _ => 0⟩ none (fun _ => none) 0 none rfl rfl
  exact h.2.1

/-- A torch integer tensor: its shape (list of dimension sizes) and its
flattened data. -/
structure ITensor where
  dims : List ℕ
  data : List ℤ
deriving DecidableEq, Repr

/-- `Tensor.dim()`. -/
def ITensor.dim (t : ITensor) : ℕ := t.dims.length

/-- `torch.repeat_interleave(vals, counts)`: entry `vals[i]` repeated
`counts[i]` times, concatenated in order. -/
def repeatInterleave (vals : List ℤ) (counts : List ℕ) : List ℤ :=
  ((vals.zip counts).map (fun p => List.replicate p.2 p.1)).flatten

/-- `int(per_node_indices.max().item()) if per_node_indices.numel() else -1`
(positional_embeddings.py, line 109). -/
def maxIdxOf (l : List ℤ) : ℤ :=
  match l.max? with
  | some m => m
  | none => -1

/-- `GlobalNumAtomsEmbedding.forward` (positional_embeddings.py, lines
96-119): validate that both inputs are 1-D tensors of the same length B,
broadcast the per-graph `num_atoms` values to per-node indices with
`repeat_interleave`, then embed each per-node index.  `emb` stands for the
embedding of one index (the learned `nn.Embedding` row, or the sinusoidal
encoding of dimension `embDim`); `numEmbeddings` is the learned table size
(`max_value + 1`).  The learned path additionally bound-checks the indices;
the sinusoidal encoder rejects an odd `emb_dim`. -/
def GlobalNumAtomsEmbedding.forward (mode : String) (numEmbeddings : ℕ)
    (emb : ℤ → List ℚ) (embDim : ℕ)
    (num_atoms num_nodes_per_graph : ITensor) :
    Except String (List (List ℚ)) :=
  if num_atoms.dim ≠ 1 ∨ num_nodes_per_graph.dim ≠ 1 then
    Except.error "num_atoms and num_nodes_per_graph must be 1D tensors."
  else if num_atoms.dims.headD 0 ≠ num_nodes_per_graph.dims.headD 0 then
    Except.error "num_atoms and num_nodes_per_graph must have same length (B)."
  else if mode = "learned" then
    if (numEmbeddings : ℤ) ≤ maxIdxOf (repeatInterleave num_atoms.data
        (num_nodes_per_graph.data.map Int.toNat)) then
      Except.error "num_atoms contains a value beyond the embedding table."
    else
      Except.ok ((repeatInterleave num_atoms.data
        (num_nodes_per_graph.data.map Int.toNat)).map emb)
  else if embDim % 2 = 1 then
    Except.error "Sinusoidal positional embeddings require even emb_dim."
  else
    Except.ok ((repeatInterleave num_atoms.data
      (num_nodes_per_graph.data.map Int.toNat)).map emb)

/-- C9: on 1-D integer inputs of the same length B, the forward pass
(sinusoidal mode, even embedding dimension) returns the block tensor with one
block per graph consisting of `num_nodes_per_graph[i]` identical copies of
the embedding of `num_atoms[i]`; it therefore has `sum(num_nodes_per_graph)`
rows, each of width `embedding_dim`.  If either input is not 1-D, or the
lengths differ, a `ValueError` is raised instead. -/
theorem gnae_forward_broadcast (numEmbeddings : ℕ) (emb : ℤ → List ℚ)
    (embDim B : ℕ) (atoms nodes : ITensor)
    (hemb : ∀ z, (emb z).length = embDim) (heven : embDim % 2 = 0)
    (ha : atoms.dims = [B]) (hn : nodes.dims = [B])
    (hal : atoms.data.length = B) (hnl : nodes.data.length = B) :
    (GlobalNumAtomsEmbedding.forward "sinusoidal" numEmbeddings emb embDim
        atoms nodes
      = Except.ok (((atoms.data.zip (nodes.data.map Int.toNat)).map
          (fun p => List.replicate p.2 (emb p.1))).flatten) ∧
      (((atoms.data.zip (nodes.data.map Int.toNat)).map
          (fun p => List.replicate p.2 (emb p.1))).flatten).length
        = (nodes.data.map Int.toNat).sum ∧
      ∀ row ∈ ((atoms.data.zip (nodes.data.map Int.toNat)).map
          (fun p => List.replicate p.2 (emb p.1))).flatten,
        row.length = embDim) ∧
    (∀ (a n : ITensor), a.dim ≠ 1 ∨ n.dim ≠ 1 →
      GlobalNumAtomsEmbedding.forward "sinusoidal" numEmbeddings emb embDim a n
        = Except.error "num_atoms and num_nodes_per_graph must be 1D tensors.") ∧
    (∀ (a n : ITensor) (B1 B2 : ℕ), a.dims = [B1] → n.dims = [B2] → B1 ≠ B2 →
      GlobalNumAtomsEmbedding.forward "sinusoidal" numEmbeddings emb embDim a n
        = Except.error
            "num_atoms and num_nodes_per_graph must have same length (B).") := by
  refine ⟨⟨?_, ?_, ?_⟩, ?_, ?_⟩
  · rw [GlobalNumAtomsEmbedding.forward,
      if_neg (by simp [ITensor.dim, ha, hn]),
      if_neg (by simp [ha, hn]),
      if_neg (by decide),
      if_neg (by omega)]
    rw [repeatInterleave, List.map_flatten, List.map_map]
    have hfun : (List.map emb ∘ fun p : ℤ × ℕ => List.replicate p.2 p.1)
        = fun p : ℤ × ℕ => List.replicate p.2 (emb p.1) := by
      funext p
      exact List.map_replicate
    rw [hfun]
  · rw [List.length_flatten, List.map_map]
    have hfun : (List.length ∘ fun p : ℤ × ℕ => List.replicate p.2 (emb p.1))
        = fun p : ℤ × ℕ => p.2 := by
      funext p
      exact List.length_replicate _ _
    rw [hfun]
    have hsnd : ((atoms.data.zip (nodes.data.map Int.toNat)).map
        (fun p => p.2)) = nodes.data.map Int.toNat :=
      List.map_snd_zip atoms.data (nodes.data.map Int.toNat)
        (by rw [List.length_map, hal, hnl])
    rw [hsnd]
  · intro row hrow
    rcases List.mem_flatten.mp hrow with ⟨l, hl, hrl⟩
    rcases List.mem_map.mp hl with ⟨p, _, rfl⟩
    rw [List.eq_of_mem_replicate hrl]
    exact hemb p.1
  · intro a n h
    rw [GlobalNumAtomsEmbedding.forward, if_pos h]
  · intro a n B1 B2 h1 h2 hne
    rw [GlobalNumAtomsEmbedding.forward,
      if_neg (by simp [ITensor.dim, h1, h2]),
      if_pos (by simp [h1, h2, hne])]

/-- Witness for C9: graphs with `num_atoms = [10, 4]` and node counts
`[3, 2]`, embedding an index `z` as `[z, 0]` (embedding_dim 2): the output is
three copies of the embedding of 10 followed by two copies of the embedding
of 4, and mismatched inputs raise. -/
theorem gnae_forward_broadcast_witness :
    GlobalNumAtomsEmbedding.forward "sinusoidal" 0 (fun z => [(z : ℚ), 0]) 2
        ⟨[2], [10, 4]⟩ ⟨[2], [3, 2]⟩
      = Except.ok [[10, 0], [10, 0], [10, 0], [4, 0], [4, 0]] ∧
    GlobalNumAtomsEmbedding.forward "sinusoidal" 0 (fun z => [(z : ℚ), 0]) 2
        ⟨[2, 1], [10, 4]⟩ ⟨[2], [3, 2]⟩
      = Except.error "num_atoms and num_nodes_per_graph must be 1D tensors." ∧
    GlobalNumAtomsEmbedding.forward "sinusoidal" 0 (fun z => [(z : ℚ), 0]) 2
        ⟨[2], [10, 4]⟩ ⟨[3], [3, 2, 7]⟩
      = Except.error
          "num_atoms and num_nodes_per_graph must have same length (B)." := by
  have h := gnae_forward_broadcast 0 (fun z => [(z : ℚ), 0]) 2 2
    ⟨[2], [10, 4]⟩ ⟨[2], [3, 2]⟩ (fun z => rfl) rfl rfl rfl rfl rfl
  refine ⟨?_, ?_, ?_⟩
  · rw [h.1.1]
    rfl
  · exact h.2.1 ⟨[2, 1], [10, 4]⟩ ⟨[2], [3, 2]⟩ (by simp [ITensor.dim])
  · exact h.2.2 ⟨[2], [10, 4]⟩ ⟨[3], [3, 2, 7]⟩ 2 3 rfl rfl (by omega)
